import Mathlib

/-!
# Verification of `set-gps-time` (`src/main.rs`)

A shallow embedding of the sentence-decoding and time-reconciliation logic of
the `set-gps-time` utility, together with theorems settling the specification
claims.

Modelling conventions:
* A raw line is a `List Char` (the bytes read by `read_line`, including any
  trailing newline; all inputs of interest are ASCII, so the byte/char
  distinction of Rust string slicing does not arise for the claims below).
* Rust's `line.split(',')` is `splitFields`.
* `str::parse::<u32>` / `::<i32>` are `parseU32` / `parseI32` (optional sign,
  at least one ASCII digit, range-checked).
* `chrono::NaiveDate::from_ymd_opt` / `NaiveTime::from_hms_milli_opt` validity
  is `validYmd` / `validHmsMilli`.
* Rust byte-slice indexing `s[a..b]` is `strSlice`; an out-of-bounds slice
  panics in Rust, modelled by the distinguished outcome `Failure.panicked`
  (a panic also aborts the process, but it is not a returned `anyhow` error).
* The external collaborators (serial transport, platform clock setter, host
  UTC clock) are parameters: the transport is a list of read results, the
  host clock supplies `today : Date`, and the clock setter is assumed to
  succeed (it is out of scope for every claim below).
-/

set_option autoImplicit false

namespace SetGpsTime

/-- A decimal digit's value, `none` for a non-digit (used by integer parsing). -/
def digitVal (c : Char) : Option Nat :=
  if '0' ≤ c ∧ c ≤ '9' then some (c.toNat - '0'.toNat) else none

/-- Accumulate decimal digits left to right; `none` on the first non-digit. -/
def parseDigitsAux : List Char → Nat → Option Nat
  | [], acc => some acc
  | c :: cs, acc =>
    match digitVal c with
    | some d => parseDigitsAux cs (acc * 10 + d)
    | none => none

/-- Rust `str::parse::<u32>`: optional leading `+`, then at least one ASCII
digit, value below `2^32`. -/
def parseU32 (s : List Char) : Option Nat :=
  let body := match s with
    | '+' :: rest => rest
    | rest => rest
  match body with
  | [] => none
  | _ =>
    match parseDigitsAux body 0 with
    | some n => if n < 4294967296 then some n else none
    | none => none

/-- Rust `str::parse::<i32>`: optional leading sign, then at least one ASCII
digit, value in the `i32` range. -/
def parseI32 (s : List Char) : Option Int :=
  let signBody : Bool × List Char := match s with
    | '+' :: rest => (false, rest)
    | '-' :: rest => (true, rest)
    | rest => (false, rest)
  match signBody.2 with
  | [] => none
  | _ =>
    match parseDigitsAux signBody.2 0 with
    | some n =>
      let v : Int := if signBody.1 then -(n : Int) else (n : Int)
      if -2147483648 ≤ v ∧ v ≤ 2147483647 then some v else none
    | none => none

/-- Rust `line.split(',')`: always at least one (possibly empty) field. -/
def splitFields : List Char → List (List Char)
  | [] => [[]]
  | c :: rest =>
    if c = ',' then [] :: splitFields rest
    else
      match splitFields rest with
      | [] => [[c]]
      | f :: fs => (c :: f) :: fs

/-- Gregorian leap year, as used by `chrono`. -/
def isLeapYear (y : Int) : Bool :=
  (y % 4 == 0 && y % 100 != 0) || y % 400 == 0

/-- Number of days in a month of a given year. -/
def daysInMonth (y : Int) (m : Nat) : Nat :=
  if m = 2 then (if isLeapYear y then 29 else 28)
  else if m = 4 ∨ m = 6 ∨ m = 9 ∨ m = 11 then 30
  else 31

/-- `chrono::NaiveDate::from_ymd_opt` succeeds: month and day in range for the
calendar, year within `chrono`'s representable range. -/
def validYmd (y : Int) (m d : Nat) : Bool :=
  (-262144 ≤ y && y ≤ 262143) && (1 ≤ m && m ≤ 12) && (1 ≤ d && d ≤ daysInMonth y m)

/-- `chrono::NaiveTime::from_hms_milli_opt` succeeds: the millisecond field may
reach `1999` to encode a leap second. -/
def validHmsMilli (h mi s ms : Nat) : Bool :=
  h < 24 && mi < 60 && s < 60 && ms < 2000

/-- Calendar date (`chrono::NaiveDate`). -/
structure Date where
  year : Int
  month : Nat
  day : Nat
  deriving DecidableEq, Repr

/-- Time of day with millisecond precision (`chrono::NaiveTime`). -/
structure TimeOfDay where
  hour : Nat
  minute : Nat
  second : Nat
  millis : Nat
  deriving DecidableEq, Repr

/-- Absolute UTC timestamp with millisecond precision
(`chrono::DateTime<Utc>` as produced by the decoders). -/
structure DateTimeMs where
  date : Date
  time : TimeOfDay
  deriving DecidableEq, Repr

/-- The ways a loop iteration can fail fatally.  All constructors except
`panicked` model a returned `anyhow` error (`context`/`bail!`/`?`);
`panicked` models a Rust panic from an out-of-bounds byte slice. -/
inductive Failure where
  | missingField (ctx : String)
  | parseError
  | invalidLength
  | invalidDate
  | invalidTime
  | panicked
  deriving DecidableEq, Repr

/-- Rust `s[a..b]` followed by `.parse::<u32>()?`: an out-of-range slice
panics, a failed parse returns an error. -/
def sliceParseU32 (s : List Char) (a b : Nat) : Except Failure Nat :=
  if a ≤ b ∧ b ≤ s.length then
    match parseU32 ((s.drop a).take (b - a)) with
    | some n => .ok n
    | none => .error .parseError
  else .error .panicked

/-- The `"$GPZDA" | "$GNZDA"` match arm of `main`: given the fields after the
header, decode a full UTC date and time.  Field order, error order and the
9-character length check follow the source. -/
def zdaDecode : List (List Char) → Except Failure DateTimeMs
  | [] => .error (.missingField "Missing UTC time status")
  | ts :: rest1 =>
    match rest1 with
    | [] => .error (.missingField "Missing day")
    | dstr :: rest2 =>
      match parseU32 dstr with
      | none => .error .parseError
      | some day =>
        match rest2 with
        | [] => .error (.missingField "Missing month")
        | mstr :: rest3 =>
          match parseU32 mstr with
          | none => .error .parseError
          | some month =>
            match rest3 with
            | [] => .error (.missingField "Missing year")
            | ystr :: _ =>
              match parseI32 ystr with
              | none => .error .parseError
              | some year =>
                if ts.length = 9 then
                  match sliceParseU32 ts 0 2 with
                  | .error e => .error e
                  | .ok hour =>
                    match sliceParseU32 ts 2 4 with
                    | .error e => .error e
                    | .ok minute =>
                      match sliceParseU32 ts 4 6 with
                      | .error e => .error e
                      | .ok second =>
                        match sliceParseU32 ts 7 9 with
                        | .error e => .error e
                        | .ok msRaw =>
                          let millis := msRaw * 10
                          if validYmd year month day then
                            if validHmsMilli hour minute second millis then
                              .ok ⟨⟨year, month, day⟩, ⟨hour, minute, second, millis⟩⟩
                            else .error .invalidTime
                          else .error .invalidDate
                else .error .invalidLength

/-- The field decoding of the `"$GPGGA"` match arm once the fallback threshold
is reached: only a time of day is extracted (no length check is present in the
source; short fields make the byte slices panic). -/
def ggaDecodeTime : List (List Char) → Except Failure TimeOfDay
  | [] => .error (.missingField "Missing UTC time status")
  | ts :: _ =>
    match sliceParseU32 ts 0 2 with
    | .error e => .error e
    | .ok hour =>
      match sliceParseU32 ts 2 4 with
      | .error e => .error e
      | .ok minute =>
        match sliceParseU32 ts 4 6 with
        | .error e => .error e
        | .ok second =>
          match sliceParseU32 ts 7 9 with
          | .error e => .error e
          | .ok msRaw =>
            let millis := msRaw * 10
            if validHmsMilli hour minute second millis then
              .ok ⟨hour, minute, second, millis⟩
            else .error .invalidTime

/-- One `port.read_line` result: `.error` for an `io::Result` failure of the
serial transport, `.ok` for a successfully read line (newline included). -/
abbrev ReadResult := Except Unit (List Char)

/-- What `main` has observably done when it returns:
* `timeSet`: the timestamp handed to the platform clock setter, if any
  (the fallback path pairs the decoded time of day with the host's current
  UTC date);
* `successPrints`: how many `"Successfully set time!"` lines were printed;
* `viaFallback`: whether the clock was set from a `$GPGGA` sentence. -/
structure FinalState where
  timeSet : Option DateTimeMs
  successPrints : Nat
  viaFallback : Bool
  deriving DecidableEq, Repr

/-- Header tag of the `$GPZDA` sentence family. -/
def gpzdaTag : List Char := "$GPZDA".toList

/-- Header tag of the `$GNZDA` sentence family. -/
def gnzdaTag : List Char := "$GNZDA".toList

/-- Header tag of the `$GPGGA` sentence family. -/
def ggaTag : List Char := "$GPGGA".toList

/-- The `while let Ok(..) = port.read_line(..)` loop of `main`.

`today` is the host UTC clock oracle (`chrono::offset::Utc::now()`), used only
by the fallback path; `seen` is the `seen_gpgga` counter.  A read error ends
the loop (`while let`), after which `main` returns `Ok(())`.  An exhausted
read list models the end of the observed transport prefix with no acceptance.
The platform clock setter is assumed to succeed.  On `$GPGGA` lines before the
fifth sighting the source `continue`s without reading any further field. -/
def runLoop (today : Date) : List ReadResult → Nat → Except Failure FinalState
  | [], _ => .ok ⟨none, 0, false⟩
  | .error _ :: _, _ => .ok ⟨none, 0, false⟩
  | .ok line :: rest, seen =>
    match splitFields line with
    | [] => .error (.missingField "Missing GPS header")
    | header :: fields =>
      if header = gpzdaTag ∨ header = gnzdaTag then
        match zdaDecode fields with
        | .error e => .error e
        | .ok dt => .ok ⟨some dt, 1, false⟩
      else if header = ggaTag then
        if seen + 1 < 5 then runLoop today rest (seen + 1)
        else
          match ggaDecodeTime fields with
          | .error e => .error e
          | .ok t => .ok ⟨some ⟨today, t⟩, 0, true⟩
      else runLoop today rest seen

/-- Process exit status determined by `main`'s `anyhow::Result`:
`Ok` exits 0, `Err` exits non-zero. -/
def exitCode (r : Except Failure FinalState) : Nat :=
  match r with
  | .ok _ => 0
  | .error _ => 1

/-- `Instant::elapsed` at monotonic instant `now` for a mark captured earlier:
saturating at zero, like Rust's monotonic-clock subtraction. -/
def elapsedSince (mark now : Nat) : Nat := now - mark

/-- The latency compensation of `set_datetime_linux` / `set_datetime_macos`:
`datetime + received_at.elapsed()`, on timestamps and monotonic instants
measured in nanoseconds. -/
def correctTimestamp (t : Int) (mark now : Nat) : Int :=
  t + (elapsedSince mark now : Int)

/-! ## Concrete sentences used by witnesses and counterexamples -/

/-- A well-formed `$GPZDA` sentence as read from the port. -/
def zdaLineA : List Char := "$GPZDA,123519000,25,06,2024,,*68\n".toList

/-- A well-formed `$GPGGA` sentence with time-status `081530500`. -/
def ggaLineA : List Char := "$GPGGA,081530500,x\n".toList

/-- A `$GPGGA` sentence whose time-status field is not numeric. -/
def ggaBadLine : List Char := "$GPGGA,ZZ\n".toList

/-- A reference date for the host UTC clock oracle. -/
def dateA : Date := ⟨2024, 6, 25⟩

/-- The timestamp carried by `zdaLineA`. -/
def dtA : DateTimeMs := ⟨⟨2024, 6, 25⟩, ⟨12, 35, 19, 0⟩⟩

/-! ## Single-step behaviour of the reconciliation loop -/

theorem runLoop_gga_skip (today : Date) (line : List Char) (rest : List ReadResult)
    (seen : Nat) (fs : List (List Char))
    (h : splitFields line = ggaTag :: fs) (h5 : seen + 1 < 5) :
    runLoop today (.ok line :: rest) seen = runLoop today rest (seen + 1) := by
  simp only [runLoop, h]
  rw [if_neg (by decide : ¬(ggaTag = gpzdaTag ∨ ggaTag = gnzdaTag))]
  simp [h5]

theorem runLoop_zda_accept (today : Date) (line : List Char) (rest : List ReadResult)
    (seen : Nat) (fs : List (List Char)) (dt : DateTimeMs)
    (h : splitFields line = gpzdaTag :: fs ∨ splitFields line = gnzdaTag :: fs)
    (hdec : zdaDecode fs = .ok dt) :
    runLoop today (.ok line :: rest) seen = .ok ⟨some dt, 1, false⟩ := by
  rcases h with h | h <;>
    · simp only [runLoop, h]
      rw [if_pos (by simp)]
      simp [hdec]

theorem runLoop_zda_error (today : Date) (line : List Char) (rest : List ReadResult)
    (seen : Nat) (fs : List (List Char)) (e : Failure)
    (h : splitFields line = gpzdaTag :: fs ∨ splitFields line = gnzdaTag :: fs)
    (hdec : zdaDecode fs = .error e) :
    runLoop today (.ok line :: rest) seen = .error e := by
  rcases h with h | h <;>
    · simp only [runLoop, h]
      rw [if_pos (by simp)]
      simp [hdec]

theorem runLoop_gga_accept (today : Date) (line : List Char) (rest : List ReadResult)
    (seen : Nat) (fs : List (List Char)) (t : TimeOfDay)
    (h : splitFields line = ggaTag :: fs) (h5 : ¬ seen + 1 < 5)
    (hdec : ggaDecodeTime fs = .ok t) :
    runLoop today (.ok line :: rest) seen = .ok ⟨some ⟨today, t⟩, 0, true⟩ := by
  simp only [runLoop, h]
  rw [if_neg (by decide : ¬(ggaTag = gpzdaTag ∨ ggaTag = gnzdaTag))]
  simp [h5, hdec]

theorem runLoop_gga_error (today : Date) (line : List Char) (rest : List ReadResult)
    (seen : Nat) (fs : List (List Char)) (e : Failure)
    (h : splitFields line = ggaTag :: fs) (h5 : ¬ seen + 1 < 5)
    (hdec : ggaDecodeTime fs = .error e) :
    runLoop today (.ok line :: rest) seen = .error e := by
  simp only [runLoop, h]
  rw [if_neg (by decide : ¬(ggaTag = gpzdaTag ∨ ggaTag = gnzdaTag))]
  simp [h5, hdec]

/-! ## Claims -/

/-- Claim C1 (counterexample): with a transport whose very first read fails, the
reconciliation loop terminates, no time is set, and the process exits with
status `0` — not non-zero as the claim states: the `while let Ok` loop
discards the error and `main` falls through to `return Ok(())`. -/
theorem claimC1_counterexample :
    runLoop dateA [.error ()] 0 = .ok ⟨none, 0, false⟩ ∧
    exitCode (runLoop dateA [.error ()] 0) = 0 := ⟨rfl, rfl⟩

/-- Claim C1 (amended): if the read from the serial transport fails, the
reconciliation loop terminates without setting the clock and the process exits
with status zero — the read error is silently discarded. -/
theorem claimC1_amended (today : Date) (rest : List ReadResult) (seen : Nat) :
    runLoop today (.error () :: rest) seen = .ok ⟨none, 0, false⟩ ∧
    exitCode (runLoop today (.error () :: rest) seen) = 0 := ⟨rfl, rfl⟩

/-- Claim C9: the latency compensator returns the candidate timestamp plus the
monotonic duration elapsed between the receipt mark and the moment of
correction, and returns exactly the candidate timestamp when no time has
elapsed. -/
theorem claimC9_compensator (t : Int) (mark now : Nat) (h : mark ≤ now) :
    correctTimestamp t mark now = t + ((now : Int) - (mark : Int)) ∧
    correctTimestamp t mark mark = t := by
  constructor
  · simp [correctTimestamp, elapsedSince, Nat.cast_sub h]
  · simp [correctTimestamp, elapsedSince]

/-- Witness for C9 at a concrete candidate timestamp and mark. -/
theorem claimC9_witness :
    correctTimestamp 1000 5 12 = 1000 + ((12 : Int) - (5 : Int)) ∧
    correctTimestamp 1000 5 5 = 1000 :=
  claimC9_compensator 1000 5 12 (by decide)

/-- Claim C10: neither decoder inspects the separator character at index 6 of a
9-character time-status field — replacing it by any other character leaves both
the `$GPZDA`/`$GNZDA` and the `$GPGGA` decode results unchanged. -/
theorem claimC10_separator_ignored (a b c d e f x y sep sep' : Char)
    (fields fields2 : List (List Char)) :
    zdaDecode ([a, b, c, d, e, f, sep, x, y] :: fields) =
      zdaDecode ([a, b, c, d, e, f, sep', x, y] :: fields) ∧
    ggaDecodeTime ([a, b, c, d, e, f, sep, x, y] :: fields2) =
      ggaDecodeTime ([a, b, c, d, e, f, sep', x, y] :: fields2) := by
  constructor <;> rfl

/-- Claim C2 (counterexample): the `$GPGGA` decode accepts a 10-character
all-digit time-status field without any error — no length check exists on the
fallback path, contradicting the claim for that family. -/
theorem claimC2_counterexample :
    "0815305000".toList.length ≠ 9 ∧
    ggaDecodeTime ["0815305000".toList] = .ok ⟨8, 15, 30, 0⟩ := by
  constructor
  · decide
  · rfl

/-- Claim C2 (amended): only the `$GPZDA`/`$GNZDA` decoder rejects every
time-status field whose length differs from 9; the `$GPGGA` fallback decode
performs no length check and, for instance, silently accepts a 10-character
numeric field (a shorter field makes its byte slices panic instead). -/
theorem claimC2_amended :
    (∀ (ts : List Char) (fields : List (List Char)), ts.length ≠ 9 →
      (zdaDecode (ts :: fields)).isOk = false) ∧
    ggaDecodeTime ["0815305000".toList] = .ok ⟨8, 15, 30, 0⟩ := by
  constructor
  · intro ts fields hlen
    rcases fields with _ | ⟨dstr, _ | ⟨mstr, _ | ⟨ystr, rest⟩⟩⟩ <;>
      simp only [zdaDecode, Except.isOk, Except.toBool]
    · cases parseU32 dstr <;> simp
    · cases parseU32 dstr <;> simp
      cases parseU32 mstr <;> simp
    · cases parseU32 dstr <;> simp
      cases parseU32 mstr <;> simp
      cases parseI32 ystr <;> simp
      rw [if_neg hlen]
  · rfl

/-- Witness for the amended C2 at a concrete 8-character time-status field. -/
theorem claimC2_witness :
    (zdaDecode ["12345678".toList, "25".toList, "06".toList, "2024".toList]).isOk = false ∧
    ggaDecodeTime ["0815305000".toList] = .ok ⟨8, 15, 30, 0⟩ :=
  ⟨claimC2_amended.1 "12345678".toList ["25".toList, "06".toList, "2024".toList] (by decide),
    claimC2_amended.2⟩

/-- Claim C3 (counterexample): a `$GPGGA` line whose fields are malformed
(non-numeric time status) arriving before the fallback threshold does not
abort the run — it is skipped unexamined, and a later valid `$GPZDA` line
still sets the clock successfully. -/
theorem claimC3_counterexample :
    (ggaDecodeTime (splitFields ggaBadLine).tail).isOk = false ∧
    runLoop dateA [.ok ggaBadLine, .ok zdaLineA] 0 = .ok ⟨some dtA, 1, false⟩ := by
  constructor
  · rfl
  · rfl

/-- Claim C3 (amended): a malformed field aborts the run only when the decoder
actually inspects it: always on `$GPZDA`/`$GNZDA` lines, and on `$GPGGA` lines
only at the fallback threshold; `$GPGGA` lines seen before the threshold are
skipped without any field inspection. -/
theorem claimC3_amended :
    (∀ (today : Date) (line : List Char) (rest : List ReadResult) (seen : Nat)
      (fs : List (List Char)),
      splitFields line = ggaTag :: fs → seen + 1 < 5 →
      runLoop today (.ok line :: rest) seen = runLoop today rest (seen + 1)) ∧
    (∀ (today : Date) (line : List Char) (rest : List ReadResult) (seen : Nat)
      (fs : List (List Char)) (e : Failure),
      splitFields line = gpzdaTag :: fs ∨ splitFields line = gnzdaTag :: fs →
      zdaDecode fs = .error e →
      runLoop today (.ok line :: rest) seen = .error e) ∧
    (∀ (today : Date) (line : List Char) (rest : List ReadResult) (seen : Nat)
      (fs : List (List Char)) (e : Failure),
      splitFields line = ggaTag :: fs → ¬ seen + 1 < 5 →
      ggaDecodeTime fs = .error e →
      runLoop today (.ok line :: rest) seen = .error e) :=
  ⟨runLoop_gga_skip, runLoop_zda_error, runLoop_gga_error⟩

/-- Witness for the amended C3: a malformed pre-threshold `$GPGGA` line is
skipped; a too-short `$GPZDA` time status is fatal; a malformed `$GPGGA` line
at the threshold is fatal. -/
theorem claimC3_witness :
    runLoop dateA [.ok ggaBadLine, .ok zdaLineA] 0 = runLoop dateA [.ok zdaLineA] 1 ∧
    runLoop dateA [.ok "$GPZDA,12,25,06,2024,x\n".toList] 0 = .error .invalidLength ∧
    runLoop dateA [.ok ggaBadLine] 4 = .error .parseError :=
  ⟨claimC3_amended.1 dateA ggaBadLine [.ok zdaLineA] 0 _ rfl (by decide),
    claimC3_amended.2.1 dateA "$GPZDA,12,25,06,2024,x\n".toList [] 0 _ .invalidLength
      (Or.inl rfl) rfl,
    claimC3_amended.2.2 dateA ggaBadLine [] 4 _ .parseError rfl (by decide) rfl⟩

/-- Claim C4 (counterexample): the fallback path sets the clock and the process
exits successfully, yet zero `"Successfully set time!"` lines are printed —
only the `$GPZDA`/`$GNZDA` arm contains that `println!`. -/
theorem claimC4_counterexample :
    runLoop dateA (List.replicate 5 (.ok ggaLineA)) 0 =
      .ok ⟨some ⟨dateA, ⟨8, 15, 30, 0⟩⟩, 0, true⟩ ∧
    (0 : Nat) ≠ 1 := ⟨rfl, by decide⟩

/-- Claim C4 (amended): every successful run exits with status 0; the line
`"Successfully set time!"` is printed exactly once when the clock was set from
a high-confidence sentence, and not at all on the fallback path. -/
theorem claimC4_amended (today : Date) (reads : List ReadResult) (seen : Nat)
    (st : FinalState) (hrun : runLoop today reads seen = .ok st)
    (hset : st.timeSet.isSome = true) :
    exitCode (runLoop today reads seen) = 0 ∧
    st.successPrints = (if st.viaFallback then 0 else 1) := by
  refine ⟨by rw [hrun]; rfl, ?_⟩
  induction reads generalizing seen with
  | nil =>
    simp only [runLoop] at hrun
    injection hrun with hrun
    subst hrun
    simp at hset
  | cons r rest ih =>
    cases r with
    | error e =>
      simp only [runLoop] at hrun
      injection hrun with hrun
      subst hrun
      simp at hset
    | ok line =>
      simp only [runLoop] at hrun
      rcases hsplit : splitFields line with _ | ⟨header, fields⟩ <;>
        simp only [hsplit] at hrun
      · exact absurd hrun (by simp)
      by_cases h1 : header = gpzdaTag ∨ header = gnzdaTag
      · rw [if_pos h1] at hrun
        cases hz : zdaDecode fields <;> rw [hz] at hrun
        · exact absurd hrun (by simp)
        · injection hrun with hrun
          subst hrun
          simp
      · rw [if_neg h1] at hrun
        by_cases h2 : header = ggaTag
        · rw [if_pos h2] at hrun
          by_cases h5 : seen + 1 < 5
          · rw [if_pos h5] at hrun
            exact ih _ hrun
          · rw [if_neg h5] at hrun
            cases hg : ggaDecodeTime fields <;> rw [hg] at hrun
            · exact absurd hrun (by simp)
            · injection hrun with hrun
              subst hrun
              simp
        · rw [if_neg h2] at hrun
          exact ih _ hrun

/-- Witness for the amended C4 at the concrete fallback run. -/
theorem claimC4_witness :
    exitCode (runLoop dateA (List.replicate 5 (.ok ggaLineA)) 0) = 0 ∧
    (FinalState.mk (some ⟨dateA, ⟨8, 15, 30, 0⟩⟩) 0 true).successPrints =
      (if (FinalState.mk (some ⟨dateA, ⟨8, 15, 30, 0⟩⟩) 0 true).viaFallback then 0 else 1) :=
  claimC4_amended dateA (List.replicate 5 (.ok ggaLineA)) 0
    ⟨some ⟨dateA, ⟨8, 15, 30, 0⟩⟩, 0, true⟩ rfl rfl

/-- Claim C5: a `$GPZDA`/`$GNZDA` sentence whose 9-character time status and
day/month/year fields all parse, with a semantically valid date and time,
decodes to exactly that calendar date and time of day, the milliseconds being
the two-digit sub-second field (characters 7..9) times 10. -/
theorem claimC5_zda_decode (ts dstr mstr ystr : List Char) (rest : List (List Char))
    (h mi s ms day month : Nat) (year : Int)
    (hlen : ts.length = 9)
    (hh : sliceParseU32 ts 0 2 = .ok h) (hmi : sliceParseU32 ts 2 4 = .ok mi)
    (hs : sliceParseU32 ts 4 6 = .ok s) (hms : sliceParseU32 ts 7 9 = .ok ms)
    (hd : parseU32 dstr = some day) (hmo : parseU32 mstr = some month)
    (hy : parseI32 ystr = some year)
    (hdate : validYmd year month day = true)
    (htime : validHmsMilli h mi s (ms * 10) = true) :
    zdaDecode (ts :: dstr :: mstr :: ystr :: rest) =
      .ok ⟨⟨year, month, day⟩, ⟨h, mi, s, ms * 10⟩⟩ := by
  simp [zdaDecode, hd, hmo, hy, hlen, hh, hmi, hs, hms, hdate, htime]

/-- Witness for C5 on the spec's end-to-end sentence
`$GPZDA,123519000,25,06,2024`. -/
theorem claimC5_witness :
    zdaDecode ["123519000".toList, "25".toList, "06".toList, "2024".toList] =
      .ok ⟨⟨2024, 6, 25⟩, ⟨12, 35, 19, 0⟩⟩ :=
  claimC5_zda_decode _ _ _ _ [] 12 35 19 0 25 6 2024 (by decide) rfl rfl rfl rfl rfl rfl
    rfl (by decide) (by decide)

/-- Claim C6 (counterexample): five `$GPGGA` lines with time-status
`081530500` are accepted on the fifth line, but the accepted time of day is
08:15:30.000 — characters 7..9 are `"00"`, so the millisecond field is 0, not
the 50 the claim states. -/
theorem claimC6_counterexample :
    runLoop dateA (List.replicate 5 (.ok ggaLineA)) 0 =
      .ok ⟨some ⟨dateA, ⟨8, 15, 30, 0⟩⟩, 0, true⟩ ∧
    TimeOfDay.mk 8 15 30 0 ≠ ⟨8, 15, 30, 50⟩ := ⟨rfl, by decide⟩

/-- Claim C6 (amended): five `$GPGGA` lines with time-status `081530500` and
no `$GPZDA`/`$GNZDA` line result in acceptance on the fifth line (the first
four produce no acceptance), and the accepted timestamp combines time of day
08:15:30.000 with the current UTC calendar date from the reference clock. -/
theorem claimC6_amended (today : Date) :
    runLoop today (List.replicate 4 (.ok ggaLineA)) 0 = .ok ⟨none, 0, false⟩ ∧
    runLoop today (List.replicate 5 (.ok ggaLineA)) 0 =
      .ok ⟨some ⟨today, ⟨8, 15, 30, 0⟩⟩, 0, true⟩ := by
  constructor <;> rfl

/-- Claim C7: four `$GPGGA` sightings followed by a decodable
`$GPZDA`/`$GNZDA` sentence leave the selector waiting through all four and
accept the high-confidence candidate. -/
theorem claimC7_high_confidence_wins (today : Date) (l : List (List Char))
    (rest : List ReadResult) (zline : List Char) (zfs : List (List Char))
    (dt : DateTimeMs)
    (hlen : l.length = 4)
    (hgga : ∀ line ∈ l, ∃ fs, splitFields line = ggaTag :: fs)
    (hz : splitFields zline = gpzdaTag :: zfs ∨ splitFields zline = gnzdaTag :: zfs)
    (hdec : zdaDecode zfs = .ok dt) :
    runLoop today (l.map Except.ok ++ .ok zline :: rest) 0 = .ok ⟨some dt, 1, false⟩ := by
  rcases l with _ | ⟨a, l⟩
  · simp at hlen
  rcases l with _ | ⟨b, l⟩
  · simp at hlen
  rcases l with _ | ⟨c, l⟩
  · simp at hlen
  rcases l with _ | ⟨d, l⟩
  · simp at hlen
  rcases l with _ | ⟨e, l⟩
  swap
  · simp at hlen
  obtain ⟨fa, ha⟩ := hgga a (by simp)
  obtain ⟨fb, hb⟩ := hgga b (by simp)
  obtain ⟨fc, hc⟩ := hgga c (by simp)
  obtain ⟨fd, hd⟩ := hgga d (by simp)
  simp only [List.map, List.cons_append, List.nil_append]
  rw [runLoop_gga_skip today a _ 0 fa ha (by omega),
    runLoop_gga_skip today b _ 1 fb hb (by omega),
    runLoop_gga_skip today c _ 2 fc hc (by omega),
    runLoop_gga_skip today d _ 3 fd hd (by omega)]
  exact runLoop_zda_accept today zline rest 4 zfs dt hz hdec

/-- Witness for C7: four concrete `$GPGGA` lines then a valid `$GPZDA` line. -/
theorem claimC7_witness :
    runLoop dateA ((List.replicate 4 ggaLineA).map Except.ok ++ .ok zdaLineA :: []) 0 =
      .ok ⟨some dtA, 1, false⟩ :=
  claimC7_high_confidence_wins dateA (List.replicate 4 ggaLineA) [] zdaLineA
    (splitFields zdaLineA).tail dtA (by decide)
    (by intro line hl; rw [List.eq_of_mem_replicate hl]; exact ⟨_, rfl⟩)
    (Or.inl rfl) rfl

/-- Claim C8: five consecutive `$GPGGA` sightings with no high-confidence
sentence interleaved are accepted exactly on the fifth one; the first four are
discarded and only the fifth line's time of day reaches the clock setter. -/
theorem claimC8_fallback_fifth (today : Date) (l : List (List Char))
    (rest : List ReadResult) (line5 : List Char) (fs5 : List (List Char))
    (t : TimeOfDay)
    (hlen : l.length = 4)
    (hgga : ∀ line ∈ l, ∃ fs, splitFields line = ggaTag :: fs)
    (h5 : splitFields line5 = ggaTag :: fs5)
    (hdec : ggaDecodeTime fs5 = .ok t) :
    runLoop today (l.map Except.ok ++ .ok line5 :: rest) 0 =
      .ok ⟨some ⟨today, t⟩, 0, true⟩ := by
  rcases l with _ | ⟨a, l⟩
  · simp at hlen
  rcases l with _ | ⟨b, l⟩
  · simp at hlen
  rcases l with _ | ⟨c, l⟩
  · simp at hlen
  rcases l with _ | ⟨d, l⟩
  · simp at hlen
  rcases l with _ | ⟨e, l⟩
  swap
  · simp at hlen
  obtain ⟨fa, ha⟩ := hgga a (by simp)
  obtain ⟨fb, hb⟩ := hgga b (by simp)
  obtain ⟨fc, hc⟩ := hgga c (by simp)
  obtain ⟨fd, hd⟩ := hgga d (by simp)
  simp only [List.map, List.cons_append, List.nil_append]
  rw [runLoop_gga_skip today a _ 0 fa ha (by omega),
    runLoop_gga_skip today b _ 1 fb hb (by omega),
    runLoop_gga_skip today c _ 2 fc hc (by omega),
    runLoop_gga_skip today d _ 3 fd hd (by omega)]
  exact runLoop_gga_accept today line5 rest 4 fs5 t h5 (by omega) hdec

/-- Witness for C8: five concrete `$GPGGA` lines. -/
theorem claimC8_witness :
    runLoop dateA ((List.replicate 4 ggaLineA).map Except.ok ++ .ok ggaLineA :: []) 0 =
      .ok ⟨some ⟨dateA, ⟨8, 15, 30, 0⟩⟩, 0, true⟩ :=
  claimC8_fallback_fifth dateA (List.replicate 4 ggaLineA) [] ggaLineA
    (splitFields ggaLineA).tail ⟨8, 15, 30, 0⟩ (by decide)
    (by intro line hl; rw [List.eq_of_mem_replicate hl]; exact ⟨_, rfl⟩)
    rfl rfl

end SetGpsTime
